import Mathlib

/-!
# OnTwoWheelz — verification of the data-access layer model

Shallow embedding of the client-side data-access functions of the
OnTwoWheelz application (`src/lib/supabase.ts` and the page handlers that
call them).  The hosted backend's relational store is modelled as explicit
record-of-lists state; every data-access function becomes a pure function
from the old state to a result together with the new state.  Identifiers
(uuids in the source) are modelled as natural numbers; inserted rows are
appended to the end of the corresponding table list.
-/

deriving instance DecidableEq for Except

namespace OnTwoWheelz

/-- A backend (PostgREST) error as observed by the client: its error `code`
string and whether its message contains the substring
`trip_participants_trip_id_fkey` (the only message content the source ever
inspects, at `supabase.ts:1961`). -/
structure PGError where
  code : String
  msgHasTripFk : Bool
  deriving DecidableEq, Repr

/-- Outcome of a single row-insert attempt against the backend. -/
inductive InsertResult where
  | ok
  | err (e : PGError)
  deriving DecidableEq, Repr

/-- A row of `group_trips` (the columns `joinTrip` selects at
`supabase.ts:1879`, plus `is_public` used by `getPublicTrips`). -/
structure Trip where
  id : Nat
  organizer_id : Nat
  max_participants : Nat
  current_participants : Nat
  status : String
  is_public : Bool
  deriving DecidableEq, Repr

/-- A stored row of `trip_participants`; `status` is the value the backend
holds after the insert (a column default fills in when the client omitted
the field). -/
structure TripParticipant where
  trip_id : Nat
  user_id : Nat
  status : String
  deriving DecidableEq, Repr

/-- A client-side insert payload for `trip_participants`: `status := none`
means the payload omits the `status` key entirely, so the backend applies
the column default. -/
structure ParticipantInsert where
  trip_id : Nat
  user_id : Nat
  status : Option String
  deriving DecidableEq, Repr

/-- The profile summary columns selected throughout the source
(`user_id, username, display_name, avatar_url`). -/
structure ProfileSummary where
  user_id : Nat
  username : String
  display_name : String
  avatar_url : Option String
  deriving DecidableEq, Repr

/-- A row of `user_posts` (the fields `getGlobalFeed` reads). -/
structure Post where
  id : Nat
  user_id : Nat
  is_public : Bool
  created_at : Nat
  deriving DecidableEq, Repr

/-- Backend state for the trip-related tables.  `acceptedStatuses` models
the externally-defined check constraint on `trip_participants.status`
(unknown to the client — the whole point of the negotiation loop), and
`defaultStatus` models the column default applied when an insert omits
`status`. -/
structure TripDB where
  trips : List Trip
  participants : List TripParticipant
  profiles : List ProfileSummary
  acceptedStatuses : List String
  defaultStatus : String
  deriving DecidableEq, Repr

/-- `supabase.ts:1928` — the fixed ordered candidate list of the join
status negotiation. -/
def statusValues : List String := ["joined", "confirmed", "accepted", "active"]

/-- Outcome of the participant-insert phase of `joinTrip`
(`supabase.ts:1925-1972`). -/
inductive JoinInsertOutcome where
  /-- the insert succeeded with this status label -/
  | joined (status : String)
  /-- `insertError.code === '23503'` with the trip fkey message:
  `Trip with ID ... does not exist in the database.` -/
  | tripMissingError
  /-- `insertError.code === '23514'` after the loop:
  `Unable to join trip due to status validation. ...` -/
  | statusConstraintError
  /-- `throw insertError` — the raw backend error is rethrown -/
  | rawError (e : PGError)
  deriving DecidableEq, Repr

/-- The `for (const statusValue of statusValues)` loop of
`supabase.ts:1930-1955`.  `resp` is the backend's response to the insert
attempt for a given status label; `insertError` threads the mutable
`insertError` variable (the last error seen).  Returns the pair
`(insertData, insertError)` as of loop exit: the accepted label if any,
and the last error. -/
def joinStatusLoop (resp : String → InsertResult) :
    Option PGError → List String → Option String × Option PGError
  | insertError, [] => (none, insertError)
  | insertError, s :: rest =>
    match resp s with
    | .ok => (some s, insertError)
    | .err e =>
      -- `insertError = error`; then: if not a check-constraint error, break
      if e.code ≠ "23514" then (none, some e)
      else joinStatusLoop resp (some e) rest

/-- The post-loop error translation of `supabase.ts:1957-1971`. -/
def surfaceInsertError (e : PGError) : JoinInsertOutcome :=
  if e.code = "23503" ∧ e.msgHasTripFk then .tripMissingError
  else if e.code = "23514" then .statusConstraintError
  else .rawError e

/-- The whole insert phase of `joinTrip` over an arbitrary candidate list:
run the loop, then translate a missing `insertData` through the post-loop
checks.  The `(none, none)` case is unreachable for a nonempty candidate
list (in the source it would be `throw null`). -/
def joinInsertPhaseOn (resp : String → InsertResult) (candidates : List String) :
    JoinInsertOutcome :=
  match joinStatusLoop resp none candidates with
  | (some s, _) => .joined s
  | (none, some e) => surfaceInsertError e
  | (none, none) => .rawError ⟨"", false⟩

/-- The insert phase of `joinTrip` with the source's fixed candidate list. -/
def joinInsertPhase (resp : String → InsertResult) : JoinInsertOutcome :=
  joinInsertPhaseOn resp statusValues

/-- Reference semantics written from the specification's words (§4.1):
attempt each candidate label in order and stop at the first attempt the
backend accepts; an attempt failing for any reason other than a
value-validation (check-constraint, code 23514) rejection stops the loop
immediately and that failure is surfaced; if every candidate is rejected
for validation reasons, the terminal cannot-satisfy-status-constraint
error is surfaced. -/
def negotiationSpec (resp : String → InsertResult) : List String → JoinInsertOutcome
  | [] => .statusConstraintError
  | s :: rest =>
    match resp s with
    | .ok => .joined s
    | .err e =>
      if e.code = "23514" then negotiationSpec resp rest
      else surfaceInsertError e

lemma joinStatusLoop_spec (resp : String → InsertResult) (e : PGError)
    (he : e.code = "23514") (candidates : List String) :
    (match joinStatusLoop resp (some e) candidates with
      | (some s, _) => JoinInsertOutcome.joined s
      | (none, some e') => surfaceInsertError e'
      | (none, none) => JoinInsertOutcome.rawError ⟨"", false⟩) =
    negotiationSpec resp candidates := by
  induction candidates generalizing e with
  | nil =>
    simp [joinStatusLoop, negotiationSpec, surfaceInsertError, he]
  | cons s rest ih =>
    simp only [joinStatusLoop, negotiationSpec]
    cases hr : resp s with
    | ok => simp
    | err e' =>
      by_cases h514 : e'.code = "23514"
      · simp only [h514, if_pos rfl, ne_eq, not_true_eq_false, if_false]
        exact ih e' h514
      · simp [h514]

/-- `supabase.ts:1877-1881` — look a trip up by id (`.eq('id', tripId).single()`). -/
def findTrip (db : TripDB) (tripId : Nat) : Option Trip :=
  db.trips.find? (fun t => t.id == tripId)

/-- Does any `trip_participants` row for the pair (trip, caller) exist?
This is not the `joinTrip` guard (that is `existingParticipation` below,
which models the source's `.single()` call); it serves to state that
`leaveTrip` removed every row for the pair, and zero rows — the state of
a caller who never joined — as a fresh-join precondition. -/
def isParticipant (db : TripDB) (tripId uid : Nat) : Bool :=
  db.participants.any (fun p => p.trip_id == tripId && p.user_id == uid)

/-- The rows matched by the already-participant query of `joinTrip`
(`supabase.ts:1897-1902`). -/
def pairParticipationRows (db : TripDB) (tripId uid : Nat) : List TripParticipant :=
  db.participants.filter (fun p => p.trip_id == tripId && p.user_id == uid)

/-- The already-participant check of `joinTrip` (`supabase.ts:1896-1911`):
the query ends in `.single()`, whose data is non-null exactly when one row
matches — zero rows yield PGRST116, which line 1904 explicitly tolerates,
and two or more rows likewise error out with a null `data` — so
`existingParticipation` fires only at exactly one matching row, and the
code proceeds to the insert attempt otherwise. -/
def existingParticipation (db : TripDB) (tripId uid : Nat) : Bool :=
  (pairParticipationRows db tripId uid).length == 1

/-- Backend semantics of a `trip_participants` insert: reject with a
foreign-key error (23503) when the referenced trip does not exist, reject
with a check-constraint error (23514) when an explicit status is outside
the accepted set, otherwise append the row (the column default fills an
omitted status). -/
def applyParticipantInsert (db : TripDB) (p : ParticipantInsert) :
    InsertResult × TripDB :=
  if (findTrip db p.trip_id).isNone then (.err ⟨"23503", true⟩, db)
  else
    match p.status with
    | some s =>
      if db.acceptedStatuses.contains s then
        (.ok, { db with participants := db.participants ++ [⟨p.trip_id, p.user_id, s⟩] })
      else (.err ⟨"23514", false⟩, db)
    | none =>
      (.ok, { db with participants := db.participants ++ [⟨p.trip_id, p.user_id, db.defaultStatus⟩] })

/-- The backend's response, as a function of the status label, to the
insert attempts of the `joinTrip` negotiation loop. -/
def dbInsertResp (db : TripDB) (tripId uid : Nat) (s : String) : InsertResult :=
  (applyParticipantInsert db ⟨tripId, uid, some s⟩).1

/-- The error taxonomy of `joinTrip` (each constructor corresponds to one
`throw` in `supabase.ts:1871-1979`). -/
inductive JoinError where
  /-- `Trip not found: ...` (`supabase.ts:1885`) -/
  | notFound
  /-- `Trip is not open for new participants` (`supabase.ts:1889`) -/
  | notOpen
  /-- `Trip is full` (`supabase.ts:1893`) -/
  | full
  /-- `You are already a participant in this trip` (`supabase.ts:1910`) -/
  | alreadyJoined
  /-- `Trip verification failed: ...` (`supabase.ts:1922`) -/
  | verifyFailed
  /-- `Trip with ID ... does not exist in the database.` (`supabase.ts:1963`) -/
  | tripMissing
  /-- `Unable to join trip due to status validation. ...` (`supabase.ts:1968`) -/
  | statusConstraint
  /-- `throw insertError` (`supabase.ts:1971`) -/
  | raw (e : PGError)
  deriving DecidableEq, Repr

/-- `joinTrip` (`supabase.ts:1871-1979`), for an authenticated caller
`uid`.  Returns the thrown error or the inserted row, together with the
backend state afterwards.  The client-side pre-checks run in source
order: trip lookup, open-status, capacity, already-joined, then the
verification re-read, then the status-negotiation insert loop.  Failed
insert attempts write nothing, so appending the accepted row once is the
exact net effect of the source's in-loop insert. -/
def joinTrip (db : TripDB) (uid tripId : Nat) :
    Except JoinError TripParticipant × TripDB :=
  match findTrip db tripId with
  | none => (.error .notFound, db)
  | some trip =>
    if trip.status ≠ "open" then (.error .notOpen, db)
    else if trip.max_participants ≤ trip.current_participants then (.error .full, db)
    else if existingParticipation db tripId uid then (.error .alreadyJoined, db)
    else
      match findTrip db tripId with
      | none => (.error .verifyFailed, db)
      | some _ =>
        match joinInsertPhase (dbInsertResp db tripId uid) with
        | .joined s =>
          (.ok ⟨tripId, uid, s⟩,
            { db with participants := db.participants ++ [⟨tripId, uid, s⟩] })
        | .tripMissingError => (.error .tripMissing, db)
        | .statusConstraintError => (.error .statusConstraint, db)
        | .rawError e => (.error (.raw e), db)

/-- `leaveTrip` (`supabase.ts:1981-1996`): delete the caller's
`trip_participants` rows for the trip — no organizer check, no
existence check — and return `true`. -/
def leaveTrip (db : TripDB) (uid tripId : Nat) : Bool × TripDB :=
  (true,
    { db with
      participants :=
        db.participants.filter (fun p => !(p.trip_id == tripId && p.user_id == uid)) })

/-- The organizer auto-enroll payload of `createTrip`
(`supabase.ts:1716-1721`): only `trip_id` and `user_id` — the `status`
key is omitted. -/
def organizerParticipantPayload (tripId uid : Nat) : ParticipantInsert :=
  ⟨tripId, uid, none⟩

/-- `createTrip` (`supabase.ts:1681-1724`): insert the `group_trips` row
(`t`, whose id the backend assigned), then insert the organizer's
participant row with the status field omitted. -/
def createTrip (db : TripDB) (uid : Nat) (t : Trip) : TripDB :=
  let db1 : TripDB := { db with trips := db.trips ++ [t] }
  (applyParticipantInsert db1 (organizerParticipantPayload t.id uid)).2

/-- `supabase.ts:2070` — the status filter of `getUserJoinedTrips`. -/
def joinedTripsStatusFilter : List String :=
  ["joined", "confirmed", "accepted", "active", "pending"]

/-- `supabase.ts:340` — the status filter of `sendTripMessage`'s
participation check. -/
def chatStatusFilter : List String :=
  ["joined", "confirmed", "accepted", "active", "pending"]

/-- `supabase.ts:225` — the status filter of the `debugChatPermission`
participation check. -/
def debugChatStatusFilter : List String :=
  ["joined", "confirmed", "accepted", "active", "pending"]

/-- The placeholder organizer profile used when a profile lookup misses
(`supabase.ts:2119-2124`). -/
def anonymousOrganizer (uid : Nat) : ProfileSummary :=
  ⟨uid, "unknown", "Anonymous Organizer", none⟩

/-- A trip as returned by `getUserJoinedTrips`: the `group_trips` row
merged with its organizer's profile summary. -/
structure JoinedTrip where
  trip : Trip
  organizer : ProfileSummary
  deriving DecidableEq, Repr

/-- `getUserJoinedTrips` (`supabase.ts:2058-2130`): fetch the caller's
participations filtered by the status superset, fetch the referenced
trips, and merge each with its organizer profile (placeholder on a miss).
The source's early return for an empty participation list is behaviourally
the same as filtering against the empty id list. -/
def getUserJoinedTrips (db : TripDB) (uid : Nat) : List JoinedTrip :=
  let participations :=
    db.participants.filter
      (fun p => p.user_id == uid && joinedTripsStatusFilter.contains p.status)
  let tripIds := participations.map (·.trip_id)
  let tripsData := db.trips.filter (fun t => tripIds.contains t.id)
  tripsData.map (fun t =>
    ⟨t, ((db.profiles.find? (fun pr => pr.user_id == t.organizer_id)).getD
          (anonymousOrganizer t.organizer_id))⟩)

/-- The participation rows matched by `sendTripMessage`'s permission query
(`supabase.ts:335-341`). -/
def chatParticipationRows (db : TripDB) (uid tripId : Nat) : List TripParticipant :=
  db.participants.filter
    (fun p => p.trip_id == tripId && p.user_id == uid && chatStatusFilter.contains p.status)

/-- The `canSendMessage` permission check of `sendTripMessage`
(`supabase.ts:333-349`): the participation query uses `.single()`, so it
yields a row exactly when one row matches; otherwise the organizer check
decides. -/
def canSendTripMessage (db : TripDB) (uid tripId : Nat) : Bool :=
  let rows := chatParticipationRows db uid tripId
  let participationFound := rows.length == 1
  participationFound ||
    (match findTrip db tripId with
     | some t => t.organizer_id == uid
     | none => false)

/-- The local view state `TripDetails.tsx` keeps for the join button:
whether the caller is shown as joined, and the visible
`current_participants` count. -/
structure UIState where
  isJoined : Bool
  visibleCount : Nat
  deriving DecidableEq, Repr

/-- `handleJoinLeave` (`TripDetails.tsx:126-181`): the organizer is blocked
client-side before any data-access call; otherwise leave or join through
the data-access layer, and on success adjust the visible participant count
by exactly one.  A join failure leaves the view state unchanged (the error
is only toasted). -/
def handleJoinLeave (db : TripDB) (uid tripId : Nat) (isOrganizer : Bool)
    (ui : UIState) : TripDB × UIState :=
  if isOrganizer then (db, ui)
  else if ui.isJoined then
    let r := leaveTrip db uid tripId
    (r.2, ⟨false, ui.visibleCount - 1⟩)
  else
    match joinTrip db uid tripId with
    | (.ok _, db1) => (db1, ⟨true, ui.visibleCount + 1⟩)
    | (.error _, db1) => (db1, ui)

/-! ## Feed assembly (`getGlobalFeed`) -/

/-- The placeholder author profile used when a profile lookup misses
(`supabase.ts:948-952`, `963-967`). -/
def anonymousUser (uid : Nat) : ProfileSummary :=
  ⟨uid, "unknown", "Anonymous User", none⟩

/-- A feed item: a post merged with the author's profile summary
(`user_profiles` in the source's merged object). -/
structure FeedItem where
  post : Post
  user_profiles : ProfileSummary
  deriving DecidableEq, Repr

/-- Insert into a list kept in descending `created_at` order. -/
def insertByCreatedDesc (p : Post) : List Post → List Post
  | [] => [p]
  | q :: rest =>
    if q.created_at ≤ p.created_at then p :: q :: rest
    else q :: insertByCreatedDesc p rest

/-- `order('created_at', ascending: false)` — sort by creation time
descending (insertion sort; any stable realisation of the backend's
ordering agrees up to ties). -/
def sortByCreatedDesc : List Post → List Post
  | [] => []
  | p :: rest => insertByCreatedDesc p (sortByCreatedDesc rest)

/-- Backend state for the feed: `user_posts` plus `user_profiles`. -/
structure FeedDB where
  posts : List Post
  profiles : List ProfileSummary
  deriving DecidableEq, Repr

/-- `getGlobalFeed` (`supabase.ts:910-978`): page the public posts by
creation time descending (`.range(offset, offset + limit - 1)` = drop
`offset`, take `limit`), then merge each with its author's profile
summary, substituting the placeholder on a miss. -/
def getGlobalFeed (db : FeedDB) (limit offset : Nat) : List FeedItem :=
  let postsData :=
    ((sortByCreatedDesc (db.posts.filter (·.is_public))).drop offset).take limit
  postsData.map (fun post =>
    ⟨post, ((db.profiles.find? (fun pr => pr.user_id == post.user_id)).getD
            (anonymousUser post.user_id))⟩)

/-! ## Like toggling (`togglePostLike`) -/

/-- The `post_likes` rows matching a (user, post) pair. -/
def likeRowsFor (userId postId : Nat) (likes : List (Nat × Nat)) : List (Nat × Nat) :=
  likes.filter (fun l => l.1 == userId && l.2 == postId)

/-- `togglePostLike` (`supabase.ts:1008-1036`).  The existence check uses
`.single()`, whose data is non-null exactly when one row matches (its
error is silently discarded by the destructuring).  If a like edge is
found, delete the matching rows and report `false` (now unliked);
otherwise insert the edge and report `true` (now liked). -/
def togglePostLike (userId postId : Nat) (likes : List (Nat × Nat)) :
    Bool × List (Nat × Nat) :=
  if (likeRowsFor userId postId likes).length == 1 then
    (false, likes.filter (fun l => !(l.1 == userId && l.2 == postId)))
  else
    (true, likes ++ [(userId, postId)])

/-! ## Follow/unfollow counters -/

/-- A row of `user_stats` (the two counters the follow path touches). -/
structure UserStats where
  user_id : Nat
  followers_count : Nat
  following_count : Nat
  deriving DecidableEq, Repr

/-- Backend state for the follow graph: the `user_followers` edge table
(rows are `(follower_id, following_id)` pairs) and the `user_stats`
counter table. -/
structure FollowDB where
  edges : List (Nat × Nat)
  stats : List UserStats
  deriving DecidableEq, Repr

/-- Exact follower count recomputed from the edge table
(`.eq('following_id', uid)` with `count: 'exact'`). -/
def countFollowers (db : FollowDB) (uid : Nat) : Nat :=
  (db.edges.filter (fun e => e.2 == uid)).length

/-- Exact following count recomputed from the edge table
(`.eq('follower_id', uid)` with `count: 'exact'`). -/
def countFollowing (db : FollowDB) (uid : Nat) : Nat :=
  (db.edges.filter (fun e => e.1 == uid)).length

/-- `upsert({user_id, followers_count}, {onConflict: 'user_id'})`: update
the `followers_count` column of the existing row, or insert a fresh row
(the untouched counter takes the column default 0). -/
def upsertFollowersCount (db : FollowDB) (uid c : Nat) : FollowDB :=
  if db.stats.any (fun s => s.user_id == uid) then
    { db with stats := db.stats.map (fun s =>
        if s.user_id == uid then { s with followers_count := c } else s) }
  else { db with stats := db.stats ++ [⟨uid, c, 0⟩] }

/-- `upsert({user_id, following_count}, {onConflict: 'user_id'})`. -/
def upsertFollowingCount (db : FollowDB) (uid c : Nat) : FollowDB :=
  if db.stats.any (fun s => s.user_id == uid) then
    { db with stats := db.stats.map (fun s =>
        if s.user_id == uid then { s with following_count := c } else s) }
  else { db with stats := db.stats ++ [⟨uid, 0, c⟩] }

/-- The stored `followers_count` of a profile (0 when no stats row exists). -/
def storedFollowers (db : FollowDB) (uid : Nat) : Nat :=
  ((db.stats.find? (fun s => s.user_id == uid)).map (·.followers_count)).getD 0

/-- The stored `following_count` of a profile (0 when no stats row exists). -/
def storedFollowing (db : FollowDB) (uid : Nat) : Nat :=
  ((db.stats.find? (fun s => s.user_id == uid)).map (·.following_count)).getD 0

/-- `followUser` (`supabase.ts:1514-1572`), caller `u` following `v`:
reject a duplicate edge, insert the edge, then recompute the followee's
follower count and the follower's following count from the edge table and
overwrite the stored counters. -/
def followUser (u v : Nat) (db : FollowDB) : Except String FollowDB :=
  if db.edges.contains (u, v) then .error "Already following this user"
  else
    let db1 : FollowDB := { db with edges := db.edges ++ [(u, v)] }
    let db2 := upsertFollowersCount db1 v (countFollowers db1 v)
    let db3 := upsertFollowingCount db2 u (countFollowing db2 u)
    .ok db3

/-- `unfollowUser` (`supabase.ts:1574-1629`): reject a missing edge,
delete the edge, then recompute and overwrite both affected counters from
the edge table. -/
def unfollowUser (u v : Nat) (db : FollowDB) : Except String FollowDB :=
  if !db.edges.contains (u, v) then .error "Not following this user"
  else
    let db1 : FollowDB :=
      { db with edges := db.edges.filter (fun e => !(e.1 == u && e.2 == v)) }
    let db2 := upsertFollowersCount db1 v (countFollowers db1 v)
    let db3 := upsertFollowingCount db2 u (countFollowing db2 u)
    .ok db3

/-- The empty follow state: no edges, no stats rows. -/
def emptyFollowDB : FollowDB := ⟨[], []⟩

/-- A sequence of follow (`true`) / unfollow (`false`) operations by the
single caller `u` against the single target `P`, applied left to right;
the first rejection aborts the run. -/
def runFollowOps (u P : Nat) : FollowDB → List Bool → Except String FollowDB
  | db, [] => .ok db
  | db, op :: rest =>
    match (if op then followUser u P db else unfollowUser u P db) with
    | .ok db1 => runFollowOps u P db1 rest
    | .error e => .error e

/-- The number of follow operations in a run. -/
def countFollowOps (ops : List Bool) : Nat := (ops.filter (· == true)).length

/-- The number of unfollow operations in a run. -/
def countUnfollowOps (ops : List Bool) : Nat := (ops.filter (· == false)).length

/-! ## Storage uploads (`StorageService`) -/

/-- The fields of a browser `File` the upload path reads. -/
structure FileData where
  name : String
  size : Nat
  type : String
  deriving DecidableEq, Repr

/-- `UploadOptions` (`supabase.ts:2145-2150`). -/
structure UploadOptions where
  bucket : String
  folder : Option String
  maxSize : Option Nat
  allowedTypes : Option (List String)
  deriving DecidableEq, Repr

/-- `UploadResult` (`supabase.ts:2139-2143`). -/
structure UploadResult where
  url : String
  path : String
  error : Option String
  deriving DecidableEq, Repr

/-- The externally visible calls the upload path can make: the storage
upload itself, and the `media_files` metadata insert. -/
inductive StorageEffect where
  | storageUpload (bucket path : String)
  | metadataInsert (bucket filename originalName : String)
  deriving DecidableEq, Repr

/-- The size-bracket index `Math.floor(Math.log(bytes) / Math.log(1024))`
computes for `1 ≤ bytes < 1024^4` (the only range the bucket limits live
in). -/
def sizeUnitIndex (bytes : Nat) : Nat :=
  if bytes < 1024 then 0
  else if bytes < 1024 ^ 2 then 1
  else if bytes < 1024 ^ 3 then 2
  else 3

/-- `formatFileSize` (`supabase.ts:2384-2390`) over naturals.  For byte
counts that are exact multiples of the selected scale unit — every
configured bucket limit is — `parseFloat((bytes / k^i).toFixed(2))` is
exactly the integer quotient, which this reproduces; fractional sizes
(never reached by the claims below) are not modelled. -/
def formatFileSize (bytes : Nat) : String :=
  if bytes = 0 then "0 Bytes"
  else
    let i := sizeUnitIndex bytes
    toString (bytes / 1024 ^ i) ++ " " ++ (["Bytes", "KB", "MB", "GB"].getD i "")

/-- The storage/metadata phase of `uploadFile` (`supabase.ts:2187-2236`),
reached only after both local validations pass.  `genName` stands for the
`timestamp_random.ext` filename the source generates. -/
def uploadFileStore (file : FileData) (options : UploadOptions)
    (userId : Option String) (genName : String) : UploadResult × List StorageEffect :=
  let folder := options.folder.getD (userId.getD "uploads")
  let filePath := folder ++ "/" ++ genName
  let effects :=
    [StorageEffect.storageUpload options.bucket filePath] ++
      (match userId with
       | some _ => [StorageEffect.metadataInsert options.bucket genName file.name]
       | none => [])
  (⟨options.bucket ++ "/" ++ filePath, filePath, none⟩, effects)

/-- The content-type validation of `uploadFile` (`supabase.ts:2178-2185`). -/
def uploadFileTypeCheck (file : FileData) (options : UploadOptions)
    (userId : Option String) (genName : String) : UploadResult × List StorageEffect :=
  match options.allowedTypes with
  | some ts =>
    if !ts.contains file.type then
      (⟨"", "", some ("File type " ++ file.type ++ " is not allowed")⟩, [])
    else uploadFileStore file options userId genName
  | none => uploadFileStore file options userId genName

/-- `uploadFile` (`supabase.ts:2163-2246`): the size validation runs first
and returns locally — with an empty effect list, i.e. before any network
call — when the file exceeds the configured limit. -/
def uploadFile (file : FileData) (options : UploadOptions)
    (userId : Option String) (genName : String) : UploadResult × List StorageEffect :=
  match options.maxSize with
  | some m =>
    if m < file.size then
      (⟨"", "", some ("File size exceeds " ++ formatFileSize m ++ " limit")⟩, [])
    else uploadFileTypeCheck file options userId genName
  | none => uploadFileTypeCheck file options userId genName

/-- The avatar bucket limit: `10 * 1024 * 1024` (`supabase.ts:2278`). -/
def avatarMaxSize : Nat := 10 * 1024 * 1024

/-- `uploadAvatar` (`supabase.ts:2274-2281`). -/
def uploadAvatar (file : FileData) (userId : String) (genName : String) :
    UploadResult × List StorageEffect :=
  uploadFile file
    ⟨"avatars", some userId, some avatarMaxSize,
      some ["image/jpeg", "image/png", "image/webp"]⟩
    (some userId) genName

/-! ## Helper lemmas -/

lemma joinInsertPhaseOn_spec (resp : String → InsertResult) (s : String)
    (rest : List String) :
    joinInsertPhaseOn resp (s :: rest) = negotiationSpec resp (s :: rest) := by
  simp only [joinInsertPhaseOn, joinStatusLoop, negotiationSpec]
  cases hr : resp s with
  | ok => simp
  | err e =>
    by_cases h514 : e.code = "23514"
    · simp only [h514, ne_eq, not_true_eq_false, if_false]
      exact joinStatusLoop_spec resp e h514 rest
    · simp [h514]

/-- How the tail of `joinTrip` turns the insert-phase outcome into its own
result (`supabase.ts:1957-1974`). -/
def joinOutcomeToResult (tripId uid : Nat) :
    JoinInsertOutcome → Except JoinError TripParticipant
  | .joined s => .ok ⟨tripId, uid, s⟩
  | .tripMissingError => .error .tripMissing
  | .statusConstraintError => .error .statusConstraint
  | .rawError e => .error (.raw e)

lemma existingParticipation_false_of_no_row (db : TripDB) (tripId uid : Nat)
    (h : isParticipant db tripId uid = false) :
    existingParticipation db tripId uid = false := by
  have hnil : pairParticipationRows db tripId uid = [] := by
    rw [pairParticipationRows, List.filter_eq_nil_iff]
    intro p hp hpred
    have : db.participants.any
        (fun p => p.trip_id == tripId && p.user_id == uid) = true :=
      List.any_eq_true.mpr ⟨p, hp, hpred⟩
    rw [isParticipant] at h
    rw [h] at this
    exact absurd this (by simp)
  rw [existingParticipation, hnil]
  rfl

lemma joinTrip_preconds_eq (db : TripDB) (uid tripId : Nat) (t : Trip)
    (hfind : findTrip db tripId = some t) (hopen : t.status = "open")
    (hcap : t.current_participants < t.max_participants)
    (hpart : isParticipant db tripId uid = false) :
    joinTrip db uid tripId =
      (match joinInsertPhase (dbInsertResp db tripId uid) with
        | .joined s =>
          (.ok ⟨tripId, uid, s⟩,
            { db with participants := db.participants ++ [⟨tripId, uid, s⟩] })
        | .tripMissingError => (.error .tripMissing, db)
        | .statusConstraintError => (.error .statusConstraint, db)
        | .rawError e => (.error (.raw e), db)) := by
  simp only [joinTrip, hfind, hopen]
  rw [if_neg (by simp), if_neg (by omega),
    if_neg (by simp [existingParticipation_false_of_no_row db tripId uid hpart])]

/-- One concrete backend state: trip 10 (organizer 5, capacity 5, one
participant counted, open), nobody on the roster, the backend accepting
only the label "confirmed". -/
def exJoinDB : TripDB :=
  { trips := [⟨10, 5, 5, 1, "open", true⟩]
    participants := []
    profiles := []
    acceptedStatuses := ["confirmed"]
    defaultStatus := "pending" }

/-- C1: for every `joinTrip` call whose client-side preconditions pass,
the participant insert phase attempts the candidate labels
`["joined", "confirmed", "accepted", "active"]` in order, stops at the
first accepted attempt, stops immediately surfacing the failure when an
attempt fails for any reason other than a check-constraint (23514)
rejection, and surfaces the terminal cannot-satisfy-status-constraint
error when every candidate is rejected for validation reasons: the insert
phase coincides with the reference negotiation semantics on the fixed
candidate list, and `joinTrip`'s result is exactly that negotiation's
outcome. -/
theorem C1_join_status_negotiation :
    (∀ resp : String → InsertResult,
      joinInsertPhase resp = negotiationSpec resp statusValues) ∧
    (∀ (db : TripDB) (uid tripId : Nat) (t : Trip),
      findTrip db tripId = some t → t.status = "open" →
      t.current_participants < t.max_participants →
      isParticipant db tripId uid = false →
      (joinTrip db uid tripId).1 =
        joinOutcomeToResult tripId uid
          (negotiationSpec (dbInsertResp db tripId uid) statusValues)) := by
  have hphase : ∀ resp : String → InsertResult,
      joinInsertPhase resp = negotiationSpec resp statusValues := fun resp =>
    joinInsertPhaseOn_spec resp "joined" ["confirmed", "accepted", "active"]
  refine ⟨hphase, ?_⟩
  intro db uid tripId t hfind hopen hcap hpart
  rw [joinTrip_preconds_eq db uid tripId t hfind hopen hcap hpart,
    ← hphase (dbInsertResp db tripId uid)]
  cases joinInsertPhase (dbInsertResp db tripId uid) <;> rfl

/-- Witness for C1 at a concrete state: the backend accepts only
"confirmed", so the negotiation skips "joined" and joins with
"confirmed". -/
theorem C1_join_status_negotiation_witness :
    (joinTrip exJoinDB 1 10).1 =
      joinOutcomeToResult 10 1
        (negotiationSpec (dbInsertResp exJoinDB 10 1) statusValues) ∧
    (joinTrip exJoinDB 1 10).1 = .ok ⟨10, 1, "confirmed"⟩ :=
  ⟨C1_join_status_negotiation.2 exJoinDB 1 10 ⟨10, 5, 5, 1, "open", true⟩
      (by decide) (by decide) (by decide) (by decide),
    by decide⟩

lemma dbInsertResp_of_found (db : TripDB) (tripId uid : Nat)
    (h : (findTrip db tripId).isSome) (s : String) :
    dbInsertResp db tripId uid s =
      if db.acceptedStatuses.contains s then .ok else .err ⟨"23514", false⟩ := by
  cases hf : findTrip db tripId with
  | none => rw [hf] at h; simp at h
  | some t =>
    simp [dbInsertResp, applyParticipantInsert, hf]
    split <;> rfl

lemma negotiationSpec_of_constraint (acc : List String)
    (resp : String → InsertResult)
    (hresp : ∀ s, resp s = if acc.contains s then .ok else .err ⟨"23514", false⟩) :
    ∀ L : List String, negotiationSpec resp L =
      (match L.find? (fun s => acc.contains s) with
        | some s => .joined s
        | none => .statusConstraintError)
  | [] => by simp [negotiationSpec]
  | s :: rest => by
    by_cases hc : s ∈ acc
    · simp [negotiationSpec, hresp s, hc, List.find?_cons]
    · simp [negotiationSpec, hresp s, hc, List.find?_cons,
        negotiationSpec_of_constraint acc resp hresp rest]

lemma joinInsertPhase_spec (resp : String → InsertResult) :
    joinInsertPhase resp = negotiationSpec resp statusValues :=
  joinInsertPhaseOn_spec resp "joined" ["confirmed", "accepted", "active"]

lemma joinTrip_success (db : TripDB) (uid tripId : Nat) (t : Trip) (s : String)
    (hfind : findTrip db tripId = some t) (hopen : t.status = "open")
    (hcap : t.current_participants < t.max_participants)
    (hpart : isParticipant db tripId uid = false)
    (hs : statusValues.find? (fun x => db.acceptedStatuses.contains x) = some s) :
    joinTrip db uid tripId =
      (.ok ⟨tripId, uid, s⟩,
        { db with participants := db.participants ++ [⟨tripId, uid, s⟩] }) := by
  have hphase : joinInsertPhase (dbInsertResp db tripId uid) = .joined s := by
    rw [joinInsertPhase_spec,
      negotiationSpec_of_constraint db.acceptedStatuses (dbInsertResp db tripId uid)
        (dbInsertResp_of_found db tripId uid (by simp [hfind])) statusValues, hs]
  rw [joinTrip_preconds_eq db uid tripId t hfind hopen hcap hpart, hphase]

/-- A backend state with trip 20 open and exactly at capacity
(3 of 3 seats counted). -/
def exFullDB : TripDB :=
  { trips := [⟨20, 5, 3, 3, "open", true⟩]
    participants := [⟨20, 2, "joined"⟩, ⟨20, 3, "joined"⟩]
    profiles := []
    acceptedStatuses := ["joined"]
    defaultStatus := "pending" }

/-- A backend state with trip 20 open and one seat below capacity
(2 of 3 seats counted). -/
def exBelowDB : TripDB :=
  { trips := [⟨20, 5, 3, 2, "open", true⟩]
    participants := [⟨20, 2, "joined"⟩]
    profiles := []
    acceptedStatuses := ["joined"]
    defaultStatus := "pending" }

/-- C2: `joinTrip` on a trip whose participant count has reached
`max_participants` fails with the Full error and leaves the store
untouched; on an open trip one below capacity (caller not yet a
participant, backend accepting some candidate label) it succeeds,
appends exactly one participant row, and the `TripDetails` handler then
raises the visible participant count by exactly one. -/
theorem C2_capacity_join :
    (∀ (db : TripDB) (uid tripId : Nat) (t : Trip),
      findTrip db tripId = some t → t.status = "open" →
      t.max_participants ≤ t.current_participants →
      joinTrip db uid tripId = (.error .full, db)) ∧
    (∀ (db : TripDB) (uid tripId : Nat) (t : Trip) (c : Nat),
      findTrip db tripId = some t → t.status = "open" →
      t.current_participants + 1 = t.max_participants →
      isParticipant db tripId uid = false →
      statusValues.any (fun s => db.acceptedStatuses.contains s) = true →
      ∃ s, (joinTrip db uid tripId).1 = .ok ⟨tripId, uid, s⟩ ∧
        (joinTrip db uid tripId).2.participants =
          db.participants ++ [⟨tripId, uid, s⟩] ∧
        handleJoinLeave db uid tripId false ⟨false, c⟩ =
          ((joinTrip db uid tripId).2, ⟨true, c + 1⟩)) := by
  constructor
  · intro db uid tripId t hfind hopen hcap
    simp only [joinTrip, hfind, hopen]
    rw [if_neg (by simp), if_pos hcap]
  · intro db uid tripId t c hfind hopen hcap hpart hacc
    have hfound : (statusValues.find?
        (fun x => db.acceptedStatuses.contains x)).isSome := by
      rw [List.find?_isSome]
      simpa using hacc
    obtain ⟨s, hs⟩ := Option.isSome_iff_exists.mp hfound
    have hJT := joinTrip_success db uid tripId t s hfind hopen (by omega) hpart hs
    refine ⟨s, by rw [hJT], by rw [hJT], ?_⟩
    rw [handleJoinLeave, if_neg (by simp)]
    simp only [Bool.false_eq_true, if_false, hJT]

/-- Witness for C2 at concrete states: at capacity the join yields the
Full error; one below capacity it succeeds and the handler shows one more
participant. -/
theorem C2_capacity_join_witness :
    joinTrip exFullDB 1 20 = (.error .full, exFullDB) ∧
    ∃ s, (joinTrip exBelowDB 1 20).1 = .ok ⟨20, 1, s⟩ ∧
      (joinTrip exBelowDB 1 20).2.participants =
        exBelowDB.participants ++ [⟨20, 1, s⟩] ∧
      handleJoinLeave exBelowDB 1 20 false ⟨false, 2⟩ =
        ((joinTrip exBelowDB 1 20).2, ⟨true, 2 + 1⟩) :=
  ⟨C2_capacity_join.1 exFullDB 1 20 ⟨20, 5, 3, 3, "open", true⟩
      (by decide) (by decide) (by decide),
    C2_capacity_join.2 exBelowDB 1 20 ⟨20, 5, 3, 2, "open", true⟩ 2
      (by decide) (by decide) (by decide) (by decide) (by decide)⟩

lemma chatParticipationRows_eq (db : TripDB) (uid tripId : Nat) :
    chatParticipationRows db uid tripId =
      (db.participants.filter (fun p => p.trip_id == tripId && p.user_id == uid)).filter
        (fun p => chatStatusFilter.contains p.status) := by
  rw [List.filter_filter]
  exact List.filter_congr (fun p _ => Bool.and_comm _ _)

/-- C3: every status-filtered participation query in the codebase
(`sendTripMessage`, `getUserJoinedTrips`, `debugChatPermission`) uses the
same label superset `["joined", "confirmed", "accepted", "active",
"pending"]`, which contains every label the `joinTrip` write side can
produce; hence a participant row inserted under any write-side label
passes the trip-chat authorization check and makes the trip appear in the
joined-trips listing. -/
theorem C3_status_filter_superset :
    (chatStatusFilter = ["joined", "confirmed", "accepted", "active", "pending"] ∧
      joinedTripsStatusFilter = chatStatusFilter ∧
      debugChatStatusFilter = chatStatusFilter ∧
      statusValues.all (fun s => chatStatusFilter.contains s) = true) ∧
    (∀ (db : TripDB) (uid tripId : Nat) (s : String),
      s ∈ statusValues →
      db.participants.filter (fun p => p.trip_id == tripId && p.user_id == uid) =
        [⟨tripId, uid, s⟩] →
      canSendTripMessage db uid tripId = true) ∧
    (∀ (db : TripDB) (uid tripId : Nat) (s : String) (t : Trip),
      s ∈ statusValues → TripParticipant.mk tripId uid s ∈ db.participants →
      t ∈ db.trips → t.id = tripId →
      (getUserJoinedTrips db uid).any (fun jt => jt.trip.id == tripId) = true) := by
  have hsub : ∀ x ∈ statusValues, x ∈ chatStatusFilter := by decide
  have hsubJ : ∀ x ∈ statusValues, x ∈ joinedTripsStatusFilter := by decide
  refine ⟨⟨rfl, rfl, rfl, by decide⟩, ?_, ?_⟩
  · intro db uid tripId s hs hrow
    have hrows : chatParticipationRows db uid tripId = [⟨tripId, uid, s⟩] := by
      rw [chatParticipationRows_eq, hrow]
      simp [hsub s hs]
    simp [canSendTripMessage, hrows]
  · intro db uid tripId s t hs hmem ht htid
    simp only [getUserJoinedTrips]
    apply List.any_eq_true.mpr
    refine ⟨_, List.mem_map.mpr ⟨t, List.mem_filter.mpr ⟨ht, ?_⟩, rfl⟩, by simp [htid]⟩
    have hpart : TripParticipant.mk tripId uid s ∈
        db.participants.filter
          (fun p => p.user_id == uid && joinedTripsStatusFilter.contains p.status) :=
      List.mem_filter.mpr ⟨hmem, by simp [hsubJ s hs]⟩
    simp only [htid, List.contains_iff_exists_mem_beq]
    exact ⟨tripId, List.mem_map.mpr ⟨_, hpart, rfl⟩, by simp⟩

/-- Witness for C3 at a concrete state: a participant inserted with the
write-side label "active" can chat and sees the trip in the joined list. -/
theorem C3_status_filter_superset_witness :
    canSendTripMessage
      ⟨[⟨30, 5, 4, 1, "open", true⟩], [⟨30, 7, "active"⟩], [], ["active"], "pending"⟩
      7 30 = true ∧
    (getUserJoinedTrips
        ⟨[⟨30, 5, 4, 1, "open", true⟩], [⟨30, 7, "active"⟩], [], ["active"], "pending"⟩
        7).any (fun jt => jt.trip.id == 30) = true :=
  ⟨C3_status_filter_superset.2.1
      ⟨[⟨30, 5, 4, 1, "open", true⟩], [⟨30, 7, "active"⟩], [], ["active"], "pending"⟩
      7 30 "active" (by decide) (by decide),
    C3_status_filter_superset.2.2
      ⟨[⟨30, 5, 4, 1, "open", true⟩], [⟨30, 7, "active"⟩], [], ["active"], "pending"⟩
      7 30 "active" ⟨30, 5, 4, 1, "open", true⟩ (by decide) (by decide)
      (by decide) (by decide)⟩

/-- Counterexample for C4 as stated: in `exFullDB` user 2 is already a
participant of trip 20 (exactly one roster row, so even the source's
`.single()` check would see it), yet because the capacity pre-check runs
before the already-joined pre-check, the second `joinTrip` call fails
with the Full error, not AlreadyJoined. -/
theorem C4_counterexample :
    existingParticipation exFullDB 20 2 = true ∧
    (joinTrip exFullDB 2 20).1 = .error .full ∧
    (joinTrip exFullDB 2 20).1 ≠ .error .alreadyJoined := by
  decide

/-- C4 (amended): when exactly one participant record exists for the
(trip, caller) pair — the state a successful prior join leaves behind,
and the only state the source's `.single()`-based check can detect — a
second `joinTrip` call never writes (the store is unchanged, so no second
record is created), and it fails with the AlreadyJoined error whenever
the trip pre-checks that run first (trip found, status open, count below
capacity) pass; otherwise the earlier NotOpen/Full error is surfaced
instead.  (With two or more duplicate rows the `.single()` check errors
out with a null result and the source proceeds to the insert attempt, so
no already-joined guarantee holds there.) -/
theorem C4_already_joined :
    ∀ (db : TripDB) (uid tripId : Nat),
      existingParticipation db tripId uid = true →
      (joinTrip db uid tripId).2 = db ∧
      ∀ t : Trip, findTrip db tripId = some t → t.status = "open" →
        t.current_participants < t.max_participants →
        (joinTrip db uid tripId).1 = .error .alreadyJoined := by
  intro db uid tripId hpart
  cases hf : findTrip db tripId with
  | none =>
    refine ⟨by simp [joinTrip, hf], ?_⟩
    intro t ht
    exact absurd ht (by simp)
  | some trip =>
    by_cases hopen : trip.status = "open"
    · by_cases hcap : trip.max_participants ≤ trip.current_participants
      · have hJT : joinTrip db uid tripId = (.error .full, db) := by
          simp only [joinTrip, hf]
          rw [if_neg (by simp [hopen]), if_pos hcap]
        refine ⟨by rw [hJT], ?_⟩
        intro t ht hto htc
        injection ht with ht
        subst ht
        omega
      · have hJT : joinTrip db uid tripId = (.error .alreadyJoined, db) := by
          simp only [joinTrip, hf]
          rw [if_neg (by simp [hopen]), if_neg hcap, if_pos hpart]
        exact ⟨by rw [hJT], fun t ht hto htc => by rw [hJT]⟩
    · have hJT : joinTrip db uid tripId = (.error .notOpen, db) := by
        simp only [joinTrip, hf]
        rw [if_pos hopen]
      refine ⟨by rw [hJT], ?_⟩
      intro t ht hto htc
      injection ht with ht
      subst ht
      exact absurd hto hopen

/-- Witness for C4 (amended) at a concrete state: user 2 already sits on
open, below-capacity trip 20, and the second join yields AlreadyJoined
with the store unchanged. -/
theorem C4_already_joined_witness :
    (joinTrip exBelowDB 2 20).2 = exBelowDB ∧
    (joinTrip exBelowDB 2 20).1 = .error .alreadyJoined :=
  ⟨(C4_already_joined exBelowDB 2 20 (by decide)).1,
    (C4_already_joined exBelowDB 2 20 (by decide)).2 ⟨20, 5, 3, 2, "open", true⟩
      (by decide) (by decide) (by decide)⟩

/-- Same participants table as `exBelowDB`, but the caller (user 2) is
the trip organizer. -/
def exLeaveDB : TripDB :=
  { trips := [⟨20, 2, 3, 2, "open", true⟩]
    participants := [⟨20, 2, "joined"⟩]
    profiles := []
    acceptedStatuses := ["joined"]
    defaultStatus := "pending" }

/-- C9: `leaveTrip` reports success and deletes the caller's participant
rows for the trip unconditionally — every other row survives, and the
result depends only on the `trip_participants` table, so nothing in the
`group_trips` data (in particular the organizer column) can guard it;
the organizer rule lives solely in the `TripDetails` handler, which
returns before any data-access call when the caller is the organizer. -/
theorem C9_leave_unguarded :
    (∀ (db : TripDB) (uid tripId : Nat),
      (leaveTrip db uid tripId).1 = true ∧
      isParticipant (leaveTrip db uid tripId).2 tripId uid = false ∧
      ∀ p : TripParticipant, p ∈ (leaveTrip db uid tripId).2.participants ↔
        p ∈ db.participants ∧ ¬(p.trip_id = tripId ∧ p.user_id = uid)) ∧
    (∀ (db db2 : TripDB) (uid tripId : Nat),
      db.participants = db2.participants →
      (leaveTrip db uid tripId).1 = (leaveTrip db2 uid tripId).1 ∧
      (leaveTrip db uid tripId).2.participants =
        (leaveTrip db2 uid tripId).2.participants) ∧
    (∀ (db : TripDB) (uid tripId : Nat) (ui : UIState),
      handleJoinLeave db uid tripId true ui = (db, ui)) := by
  refine ⟨?_, ?_, fun db uid tripId ui => rfl⟩
  · intro db uid tripId
    refine ⟨rfl, ?_, ?_⟩
    · simp [leaveTrip, isParticipant, List.any_eq_true, List.mem_filter]
      tauto
    · intro p
      simp [leaveTrip, List.mem_filter]
      tauto
  · intro db db2 uid tripId h
    exact ⟨rfl, by simp [leaveTrip, h]⟩

/-- Witness for C9: two stores with the same participants but different
organizers (in `exLeaveDB` the caller is the organizer) produce identical
`leaveTrip` outcomes. -/
theorem C9_leave_unguarded_witness :
    (leaveTrip exBelowDB 2 20).1 = (leaveTrip exLeaveDB 2 20).1 ∧
    (leaveTrip exBelowDB 2 20).2.participants =
      (leaveTrip exLeaveDB 2 20).2.participants :=
  C9_leave_unguarded.2.1 exBelowDB exLeaveDB 2 20 rfl

lemma likeRows_elem (u p : Nat) (l : List (Nat × Nat)) (x : Nat × Nat) :
    x ∈ likeRowsFor u p l ↔ x ∈ l ∧ x = (u, p) := by
  simp only [likeRowsFor, List.mem_filter, Bool.and_eq_true, beq_iff_eq]
  constructor
  · rintro ⟨hx, h1, h2⟩
    exact ⟨hx, Prod.ext h1 h2⟩
  · rintro ⟨hx, rfl⟩
    exact ⟨hx, rfl, rfl⟩

lemma likeRows_len_one_mem (u p : Nat) (l : List (Nat × Nat))
    (h : (likeRowsFor u p l).length = 1) : (u, p) ∈ l := by
  have hne : likeRowsFor u p l ≠ [] := by
    intro he
    rw [he] at h
    simp at h
  obtain ⟨x, hx⟩ := List.exists_mem_of_ne_nil _ hne
  obtain ⟨hmem, rfl⟩ := (likeRows_elem u p l x).mp hx
  exact hmem

lemma likeRows_len_zero_not_mem (u p : Nat) (l : List (Nat × Nat))
    (h : (likeRowsFor u p l).length = 0) : (u, p) ∉ l := by
  intro hmem
  have : (u, p) ∈ likeRowsFor u p l := (likeRows_elem u p l (u, p)).mpr ⟨hmem, rfl⟩
  rw [List.length_eq_zero.mp h] at this
  simp at this

lemma likeRows_of_deleted (u p : Nat) (l : List (Nat × Nat)) :
    likeRowsFor u p (l.filter (fun x => !(x.1 == u && x.2 == p))) = [] := by
  rw [likeRowsFor, List.filter_filter]
  apply List.filter_eq_nil_iff.mpr
  intro x _
  cases hx : (x.1 == u && x.2 == p) <;> simp [hx]

lemma likeRows_append_pair (u p : Nat) (l : List (Nat × Nat)) :
    likeRowsFor u p (l ++ [(u, p)]) = likeRowsFor u p l ++ [(u, p)] := by
  rw [likeRowsFor, List.filter_append]
  simp [likeRowsFor]

/-- C6: `togglePostLike` deletes the like edge and reports now-unliked
(`false`) when the (user, post) edge exists, inserts the edge and reports
now-liked (`true`) when it does not, and two sequential toggles from a
quiescent state (at most one stored edge for the pair, as the uniqueness
intent guarantees) restore the original liked/unliked state. -/
theorem C6_toggle_like :
    (∀ (userId postId : Nat) (likes : List (Nat × Nat)),
      (likeRowsFor userId postId likes).length = 1 →
      togglePostLike userId postId likes =
        (false, likes.filter (fun l => !(l.1 == userId && l.2 == postId))) ∧
      (userId, postId) ∉ (togglePostLike userId postId likes).2) ∧
    (∀ (userId postId : Nat) (likes : List (Nat × Nat)),
      (likeRowsFor userId postId likes).length = 0 →
      togglePostLike userId postId likes = (true, likes ++ [(userId, postId)]) ∧
      (userId, postId) ∈ (togglePostLike userId postId likes).2) ∧
    (∀ (userId postId : Nat) (likes : List (Nat × Nat)),
      (likeRowsFor userId postId likes).length ≤ 1 →
      ((userId, postId) ∈
          (togglePostLike userId postId (togglePostLike userId postId likes).2).2 ↔
        (userId, postId) ∈ likes)) := by
  have hdel : ∀ (u p : Nat) (l : List (Nat × Nat)),
      (likeRowsFor u p l).length = 1 →
      togglePostLike u p l = (false, l.filter (fun x => !(x.1 == u && x.2 == p))) := by
    intro u p l h
    rw [togglePostLike, if_pos (by simp [h])]
  have hins : ∀ (u p : Nat) (l : List (Nat × Nat)),
      (likeRowsFor u p l).length ≠ 1 →
      togglePostLike u p l = (true, l ++ [(u, p)]) := by
    intro u p l h
    rw [togglePostLike, if_neg (by simp [h])]
  refine ⟨?_, ?_, ?_⟩
  · intro userId postId likes h
    refine ⟨hdel userId postId likes h, ?_⟩
    rw [hdel userId postId likes h]
    intro hmem
    have := (List.mem_filter.mp hmem).2
    simp at this
  · intro userId postId likes h
    refine ⟨hins userId postId likes (by omega), ?_⟩
    rw [hins userId postId likes (by omega)]
    simp
  · intro userId postId likes h
    rcases Nat.le_one_iff_eq_zero_or_eq_one.mp h with h0 | h1
    · rw [hins userId postId likes (by omega)]
      have h2 : (likeRowsFor userId postId (likes ++ [(userId, postId)])).length = 1 := by
        rw [likeRows_append_pair]
        rw [List.length_eq_zero.mp h0]
        rfl
      rw [hdel userId postId _ h2]
      constructor
      · intro hmem
        have := (List.mem_filter.mp hmem).2
        simp at this
      · intro hmem
        exact absurd hmem (likeRows_len_zero_not_mem userId postId likes h0)
    · rw [hdel userId postId likes h1]
      rw [hins userId postId _ (by rw [likeRows_of_deleted]; simp)]
      constructor
      · intro _
        exact likeRows_len_one_mem userId postId likes h1
      · intro _
        simp

/-- Witness for C6: from a single stored edge, one toggle unlikes and a
second toggle restores the like. -/
theorem C6_toggle_like_witness :
    togglePostLike 1 9 [(1, 9)] = (false, []) ∧
    togglePostLike 1 9 [] = (true, [(1, 9)]) ∧
    ((1, 9) ∈ (togglePostLike 1 9 (togglePostLike 1 9 [(1, 9)]).2).2 ↔
      (1, 9) ∈ ([(1, 9)] : List (Nat × Nat))) :=
  ⟨(C6_toggle_like.1 1 9 [(1, 9)] (by decide)).1,
    (C6_toggle_like.2.1 1 9 [] (by decide)).1,
    C6_toggle_like.2.2 1 9 [(1, 9)] (by decide)⟩

lemma mem_insertByCreatedDesc (p x : Post) (l : List Post) :
    x ∈ insertByCreatedDesc p l ↔ x = p ∨ x ∈ l := by
  induction l with
  | nil => simp [insertByCreatedDesc]
  | cons q rest ih =>
    rw [insertByCreatedDesc]
    by_cases hle : q.created_at ≤ p.created_at
    · simp [hle]
    · simp only [hle, if_false, List.mem_cons, ih]
      tauto

lemma mem_sortByCreatedDesc (x : Post) (l : List Post) :
    x ∈ sortByCreatedDesc l ↔ x ∈ l := by
  induction l with
  | nil => simp [sortByCreatedDesc]
  | cons p rest ih =>
    rw [sortByCreatedDesc, mem_insertByCreatedDesc]
    simp [ih]

/-- C7: every item of every `getGlobalFeed` page has a public post — a
post with `is_public = false` never appears, for any limit and offset. -/
theorem C7_feed_public_only :
    ∀ (db : FeedDB) (limit offset : Nat) (item : FeedItem),
      item ∈ getGlobalFeed db limit offset → item.post.is_public = true := by
  intro db limit offset item hmem
  simp only [getGlobalFeed] at hmem
  obtain ⟨post, hpost, rfl⟩ := List.mem_map.mp hmem
  have h1 : post ∈ sortByCreatedDesc (db.posts.filter (·.is_public)) :=
    List.drop_subset _ _ (List.take_subset _ _ hpost)
  have h2 : post ∈ db.posts.filter (·.is_public) := (mem_sortByCreatedDesc _ _).mp h1
  exact (List.mem_filter.mp h2).2

/-- A feed store with one public and one private post. -/
def exFeedDB : FeedDB :=
  { posts := [⟨1, 4, true, 100⟩, ⟨2, 4, false, 200⟩]
    profiles := [] }

/-- Witness for C7: the page over `exFeedDB` contains the public post, and
the theorem applies to it. -/
theorem C7_feed_public_only_witness :
    getGlobalFeed exFeedDB 10 0 = [⟨⟨1, 4, true, 100⟩, anonymousUser 4⟩] ∧
    (⟨⟨1, 4, true, 100⟩, anonymousUser 4⟩ : FeedItem).post.is_public = true :=
  ⟨by decide,
    C7_feed_public_only exFeedDB 10 0 ⟨⟨1, 4, true, 100⟩, anonymousUser 4⟩ (by decide)⟩

/-- C8: a file exceeding the avatar bucket's configured 10 MB limit is
rejected by `uploadAvatar` locally — the result carries the size-limit
error naming the configured limit ("10 MB") and the effect list is empty:
no storage upload and no `media_files` metadata insert happen. -/
theorem C8_avatar_size_limit :
    ∀ (file : FileData) (userId genName : String),
      avatarMaxSize < file.size →
      uploadAvatar file userId genName =
        (⟨"", "", some "File size exceeds 10 MB limit"⟩, []) := by
  intro file userId genName h
  have hfmt : formatFileSize avatarMaxSize = "10 MB" := by decide
  rw [uploadAvatar, uploadFile]
  simp only [if_pos h, hfmt]
  decide

/-- Witness for C8: a 15 MB upload to the avatar bucket is rejected with
the 10 MB size-limit error and an empty effect list. -/
theorem C8_avatar_size_limit_witness :
    uploadAvatar ⟨"big.png", 15 * 1024 * 1024, "image/png"⟩ "7" "gen.png" =
      (⟨"", "", some "File size exceeds 10 MB limit"⟩, []) :=
  C8_avatar_size_limit ⟨"big.png", 15 * 1024 * 1024, "image/png"⟩ "7" "gen.png"
    (by decide)

lemma find?_map_user_preserving (stats : List UserStats) (uid : Nat)
    (updF : UserStats → UserStats) (hid : ∀ s, (updF s).user_id = s.user_id) :
    (stats.map updF).find? (fun s => s.user_id == uid) =
      (stats.find? (fun s => s.user_id == uid)).map updF := by
  induction stats with
  | nil => rfl
  | cons s rest ih =>
    by_cases h : s.user_id = uid
    · rw [List.map_cons, List.find?_cons_of_pos _ (by simp [hid, h]),
        List.find?_cons_of_pos _ (by simp [h])]
      rfl
    · rw [List.map_cons, List.find?_cons_of_neg _ (by simp [hid, h]),
        List.find?_cons_of_neg _ (by simp [h]), ih]

lemma getD_find?_map (stats : List UserStats) (w : Nat) (updF : UserStats → UserStats)
    (g : UserStats → Nat)
    (hid : ∀ s, (updF s).user_id = s.user_id) (hg : ∀ s, g (updF s) = g s) :
    (((stats.map updF).find? (fun s => s.user_id == w)).map g).getD 0 =
      ((stats.find? (fun s => s.user_id == w)).map g).getD 0 := by
  rw [find?_map_user_preserving stats w updF hid]
  cases stats.find? (fun s => s.user_id == w) with
  | none => rfl
  | some s => simp [hg]

lemma storedFollowers_upsertFollowers (db : FollowDB) (uid c : Nat) :
    storedFollowers (upsertFollowersCount db uid c) uid = c := by
  rw [upsertFollowersCount]
  by_cases hany : db.stats.any (fun s => s.user_id == uid) = true
  · rw [if_pos hany]
    simp only [storedFollowers]
    rw [find?_map_user_preserving _ uid _
      (fun s => by cases h : s.user_id == uid <;> simp [h])]
    have hsome : (db.stats.find? (fun s => s.user_id == uid)).isSome := by
      rw [List.find?_isSome]
      obtain ⟨s0, hs0, hps0⟩ := List.any_eq_true.mp hany
      exact ⟨s0, hs0, hps0⟩
    obtain ⟨s1, hs1⟩ := Option.isSome_iff_exists.mp hsome
    rw [hs1]
    have hp1 := List.find?_some hs1
    simp only [Option.map_some']
    rw [if_pos hp1]
    rfl
  · rw [if_neg hany]
    simp only [storedFollowers]
    rw [List.find?_append]
    have hnone : db.stats.find? (fun s => s.user_id == uid) = none := by
      rw [List.find?_eq_none]
      intro x hx hpx
      exact hany (List.any_eq_true.mpr ⟨x, hx, hpx⟩)
    rw [hnone]
    simp

lemma storedFollowing_upsertFollowing (db : FollowDB) (uid c : Nat) :
    storedFollowing (upsertFollowingCount db uid c) uid = c := by
  rw [upsertFollowingCount]
  by_cases hany : db.stats.any (fun s => s.user_id == uid) = true
  · rw [if_pos hany]
    simp only [storedFollowing]
    rw [find?_map_user_preserving _ uid _
      (fun s => by cases h : s.user_id == uid <;> simp [h])]
    have hsome : (db.stats.find? (fun s => s.user_id == uid)).isSome := by
      rw [List.find?_isSome]
      obtain ⟨s0, hs0, hps0⟩ := List.any_eq_true.mp hany
      exact ⟨s0, hs0, hps0⟩
    obtain ⟨s1, hs1⟩ := Option.isSome_iff_exists.mp hsome
    rw [hs1]
    have hp1 := List.find?_some hs1
    simp only [Option.map_some']
    rw [if_pos hp1]
    rfl
  · rw [if_neg hany]
    simp only [storedFollowing]
    rw [List.find?_append]
    have hnone : db.stats.find? (fun s => s.user_id == uid) = none := by
      rw [List.find?_eq_none]
      intro x hx hpx
      exact hany (List.any_eq_true.mpr ⟨x, hx, hpx⟩)
    rw [hnone]
    simp

lemma storedFollowers_upsertFollowing (db : FollowDB) (u c w : Nat) :
    storedFollowers (upsertFollowingCount db u c) w = storedFollowers db w := by
  rw [upsertFollowingCount]
  by_cases hany : db.stats.any (fun s => s.user_id == u) = true
  · rw [if_pos hany]
    simp only [storedFollowers]
    exact getD_find?_map db.stats w _ _
      (fun s => by cases h : s.user_id == u <;> simp [h])
      (fun s => by cases h : s.user_id == u <;> simp [h])
  · rw [if_neg hany]
    simp only [storedFollowers]
    rw [List.find?_append]
    cases hfq : db.stats.find? (fun s => s.user_id == w) with
    | some s => simp
    | none =>
      simp only [Option.none_or]
      by_cases huw : u = w
      · rw [List.find?_cons_of_pos _ (by simp [huw])]
        rfl
      · rw [List.find?_cons_of_neg _ (by simp [huw])]
        rfl

lemma storedFollowing_upsertFollowers (db : FollowDB) (u c w : Nat) :
    storedFollowing (upsertFollowersCount db u c) w = storedFollowing db w := by
  rw [upsertFollowersCount]
  by_cases hany : db.stats.any (fun s => s.user_id == u) = true
  · rw [if_pos hany]
    simp only [storedFollowing]
    exact getD_find?_map db.stats w _ _
      (fun s => by cases h : s.user_id == u <;> simp [h])
      (fun s => by cases h : s.user_id == u <;> simp [h])
  · rw [if_neg hany]
    simp only [storedFollowing]
    rw [List.find?_append]
    cases hfq : db.stats.find? (fun s => s.user_id == w) with
    | some s => simp
    | none =>
      simp only [Option.none_or]
      by_cases huw : u = w
      · rw [List.find?_cons_of_pos _ (by simp [huw])]
        rfl
      · rw [List.find?_cons_of_neg _ (by simp [huw])]
        rfl

lemma edges_upsertFollowersCount (db : FollowDB) (uid c : Nat) :
    (upsertFollowersCount db uid c).edges = db.edges := by
  rw [upsertFollowersCount]
  split <;> rfl

lemma edges_upsertFollowingCount (db : FollowDB) (uid c : Nat) :
    (upsertFollowingCount db uid c).edges = db.edges := by
  rw [upsertFollowingCount]
  split <;> rfl

lemma countFollowers_congr (db db2 : FollowDB) (w : Nat)
    (h : db.edges = db2.edges) : countFollowers db w = countFollowers db2 w := by
  rw [countFollowers, countFollowers, h]

lemma countFollowing_congr (db db2 : FollowDB) (w : Nat)
    (h : db.edges = db2.edges) : countFollowing db w = countFollowing db2 w := by
  rw [countFollowing, countFollowing, h]

/-- The counter-refresh phase shared by `followUser` and `unfollowUser`
(the recompute-and-upsert pairs after the edge mutation), spelled out
without local bindings. -/
def followChain (u v : Nat) (db1 : FollowDB) : FollowDB :=
  upsertFollowingCount (upsertFollowersCount db1 v (countFollowers db1 v)) u
    (countFollowing (upsertFollowersCount db1 v (countFollowers db1 v)) u)

lemma followChain_edges (u v : Nat) (db1 : FollowDB) :
    (followChain u v db1).edges = db1.edges := by
  rw [followChain, edges_upsertFollowingCount, edges_upsertFollowersCount]

lemma followChain_storedFollowers (u v : Nat) (db1 : FollowDB) :
    storedFollowers (followChain u v db1) v = countFollowers db1 v := by
  rw [followChain, storedFollowers_upsertFollowing, storedFollowers_upsertFollowers]

lemma followChain_storedFollowing (u v : Nat) (db1 : FollowDB) :
    storedFollowing (followChain u v db1) u = countFollowing db1 u := by
  rw [followChain, storedFollowing_upsertFollowing]
  exact countFollowing_congr _ _ u (edges_upsertFollowersCount db1 v _)

lemma followUser_eq_ok (u v : Nat) (db : FollowDB)
    (hc : db.edges.contains (u, v) = false) :
    followUser u v db =
      .ok (followChain u v { db with edges := db.edges ++ [(u, v)] }) := by
  rw [followUser, if_neg (by simpa using hc)]
  rfl

lemma unfollowUser_eq_ok (u v : Nat) (db : FollowDB)
    (hc : db.edges.contains (u, v) = true) :
    unfollowUser u v db =
      .ok (followChain u v
        { db with edges := db.edges.filter (fun e => !(e.1 == u && e.2 == v)) }) := by
  rw [unfollowUser, if_neg (by simpa using hc)]
  rfl

lemma followUser_ok (u v : Nat) (db db' : FollowDB)
    (h : followUser u v db = .ok db') :
    db.edges.contains (u, v) = false ∧
    db'.edges = db.edges ++ [(u, v)] ∧
    storedFollowers db' v = countFollowers db' v ∧
    storedFollowing db' u = countFollowing db' u := by
  by_cases hc : db.edges.contains (u, v) = true
  · rw [followUser, if_pos hc] at h
    exact absurd h (by simp)
  · have hc' : db.edges.contains (u, v) = false := by simpa using hc
    rw [followUser_eq_ok u v db hc'] at h
    injection h with h
    subst h
    refine ⟨hc', followChain_edges u v _, ?_, ?_⟩
    · rw [followChain_storedFollowers]
      exact (countFollowers_congr _ _ v (followChain_edges u v _)).symm
    · rw [followChain_storedFollowing]
      exact (countFollowing_congr _ _ u (followChain_edges u v _)).symm

lemma unfollowUser_ok (u v : Nat) (db db' : FollowDB)
    (h : unfollowUser u v db = .ok db') :
    db.edges.contains (u, v) = true ∧
    db'.edges = db.edges.filter (fun e => !(e.1 == u && e.2 == v)) ∧
    storedFollowers db' v = countFollowers db' v ∧
    storedFollowing db' u = countFollowing db' u := by
  by_cases hc : db.edges.contains (u, v) = true
  · rw [unfollowUser_eq_ok u v db hc] at h
    injection h with h
    subst h
    refine ⟨hc, followChain_edges u v _, ?_, ?_⟩
    · rw [followChain_storedFollowers]
      exact (countFollowers_congr _ _ v (followChain_edges u v _)).symm
    · rw [followChain_storedFollowing]
      exact (countFollowing_congr _ _ u (followChain_edges u v _)).symm
  · rw [unfollowUser, if_pos (by simpa using hc)] at h
    exact absurd h (by simp)

lemma runFollowOps_inv (u P : Nat) (ops : List Bool) :
    ∀ (db db' : FollowDB),
    (db.edges = [] ∨ db.edges = [(u, P)]) →
    storedFollowers db P = db.edges.length →
    runFollowOps u P db ops = .ok db' →
    (db'.edges = [] ∨ db'.edges = [(u, P)]) ∧
    storedFollowers db' P = db'.edges.length ∧
    db'.edges.length + countUnfollowOps ops =
      db.edges.length + countFollowOps ops := by
  induction ops with
  | nil =>
    intro db db' hinv hstored hrun
    rw [runFollowOps] at hrun
    injection hrun with hrun
    subst hrun
    simp [countFollowOps, countUnfollowOps, hstored, hinv]
  | cons op rest ih =>
    intro db db' hinv hstored hrun
    rw [runFollowOps] at hrun
    cases op with
    | true =>
      rw [if_pos rfl] at hrun
      cases hstep : followUser u P db with
      | error e => rw [hstep] at hrun; exact absurd hrun (by simp)
      | ok db1 =>
        rw [hstep] at hrun
        obtain ⟨hnc, hedges1, hstored1, _⟩ := followUser_ok u P db db1 hstep
        have hdbnil : db.edges = [] := by
          rcases hinv with h | h
          · exact h
          · rw [h] at hnc
            simp at hnc
        have hedges1x : db1.edges = [(u, P)] := by
          rw [hedges1, hdbnil]
          rfl
        have hcount1 : countFollowers db1 P = 1 := by
          rw [countFollowers, hedges1x]
          simp
        obtain ⟨hinvx, hstoredx, harith⟩ := ih db1 db' (Or.inr hedges1x)
          (by rw [hstored1, hcount1, hedges1x]; rfl) hrun
        refine ⟨hinvx, hstoredx, ?_⟩
        rw [hedges1x] at harith
        rw [hdbnil]
        simp [countFollowOps, countUnfollowOps] at harith ⊢
        omega
    | false =>
      rw [if_neg (by simp)] at hrun
      cases hstep : unfollowUser u P db with
      | error e => rw [hstep] at hrun; exact absurd hrun (by simp)
      | ok db1 =>
        rw [hstep] at hrun
        obtain ⟨hc, hedges1, hstored1, _⟩ := unfollowUser_ok u P db db1 hstep
        have hdbpair : db.edges = [(u, P)] := by
          rcases hinv with h | h
          · rw [h] at hc
            simp at hc
          · exact h
        have hedges1x : db1.edges = [] := by
          rw [hedges1, hdbpair]
          simp
        have hcount1 : countFollowers db1 P = 0 := by
          rw [countFollowers, hedges1x]
          rfl

        obtain ⟨hinvx, hstoredx, harith⟩ := ih db1 db' (Or.inl hedges1x)
          (by rw [hstored1, hcount1, hedges1x]; rfl) hrun
        refine ⟨hinvx, hstoredx, ?_⟩
        rw [hedges1x] at harith
        rw [hdbpair]
        simp [countFollowOps, countUnfollowOps] at harith ⊢
        omega

/-- C5: after every successful `followUser`/`unfollowUser` call the stored
counters the call overwrites (the followee's follower count and the
caller's following count) equal the exact counts recomputed from the
`user_followers` edge table; and for any successful sequence of N follow
and M unfollow operations by a single caller against one profile from the
empty edge set, the recomputed and the stored follower counts of that
profile both equal N − M (with M ≤ N forced by the sequence's success). -/
theorem C5_follow_counters :
    (∀ (u v : Nat) (db db' : FollowDB), followUser u v db = .ok db' →
      storedFollowers db' v = countFollowers db' v ∧
      storedFollowing db' u = countFollowing db' u) ∧
    (∀ (u v : Nat) (db db' : FollowDB), unfollowUser u v db = .ok db' →
      storedFollowers db' v = countFollowers db' v ∧
      storedFollowing db' u = countFollowing db' u) ∧
    (∀ (u P : Nat) (ops : List Bool) (db' : FollowDB),
      runFollowOps u P emptyFollowDB ops = .ok db' →
      countUnfollowOps ops ≤ countFollowOps ops ∧
      countFollowers db' P = countFollowOps ops - countUnfollowOps ops ∧
      storedFollowers db' P = countFollowOps ops - countUnfollowOps ops) := by
  refine ⟨?_, ?_, ?_⟩
  · intro u v db db' h
    obtain ⟨_, _, h3, h4⟩ := followUser_ok u v db db' h
    exact ⟨h3, h4⟩
  · intro u v db db' h
    obtain ⟨_, _, h3, h4⟩ := unfollowUser_ok u v db db' h
    exact ⟨h3, h4⟩
  · intro u P ops db' hrun
    obtain ⟨hinv, hstored, harith⟩ :=
      runFollowOps_inv u P ops emptyFollowDB db' (Or.inl rfl) rfl hrun
    have hlen : db'.edges.length + countUnfollowOps ops = countFollowOps ops := by
      simpa [emptyFollowDB] using harith
    have hcount : countFollowers db' P = db'.edges.length := by
      rcases hinv with h | h <;> rw [countFollowers, h] <;> simp
    refine ⟨by omega, by omega, by omega⟩

/-- Witness for C5: a follow, an unfollow, and a second follow by user 1
against profile 2 leave both the recomputed and the stored follower count
of profile 2 at 2 − 1 = 1. -/
theorem C5_follow_counters_witness :
    runFollowOps 1 2 emptyFollowDB [true, false, true] =
      .ok ⟨[(1, 2)], [⟨2, 1, 0⟩, ⟨1, 0, 1⟩]⟩ ∧
    countFollowers ⟨[(1, 2)], [⟨2, 1, 0⟩, ⟨1, 0, 1⟩]⟩ 2 =
      countFollowOps [true, false, true] - countUnfollowOps [true, false, true] ∧
    storedFollowers ⟨[(1, 2)], [⟨2, 1, 0⟩, ⟨1, 0, 1⟩]⟩ 2 =
      countFollowOps [true, false, true] - countUnfollowOps [true, false, true] :=
  ⟨by decide,
    (C5_follow_counters.2.2 1 2 [true, false, true]
        ⟨[(1, 2)], [⟨2, 1, 0⟩, ⟨1, 0, 1⟩]⟩ (by decide)).2.1,
    (C5_follow_counters.2.2 1 2 [true, false, true]
        ⟨[(1, 2)], [⟨2, 1, 0⟩, ⟨1, 0, 1⟩]⟩ (by decide)).2.2⟩

lemma findTrip_fresh (db : TripDB) (t : Trip)
    (hfresh : ∀ t2 ∈ db.trips, t2.id ≠ t.id) :
    findTrip { db with trips := db.trips ++ [t] } t.id = some t := by
  simp only [findTrip]
  rw [List.find?_append]
  have h1 : db.trips.find? (fun x => x.id == t.id) = none := by
    rw [List.find?_eq_none]
    intro x hx hpx
    exact hfresh x hx (by simpa using hpx)
  rw [h1]
  simp

/-- C10: a successful `createTrip` inserts exactly one `trip_participants`
row for the organizer, and its payload omits the `status` field — the
stored row carries the backend's column default, not any label the
`joinTrip` negotiation writes — so the new trip shows up in the
organizer's `getUserJoinedTrips` listing exactly when that default lies in
the read side's status label superset. -/
theorem C10_create_trip_organizer_default :
    ∀ (db : TripDB) (uid : Nat) (t : Trip),
      t.organizer_id = uid →
      (∀ t2 ∈ db.trips, t2.id ≠ t.id) →
      (∀ p ∈ db.participants, p.trip_id ≠ t.id) →
      (organizerParticipantPayload t.id uid).status = none ∧
      createTrip db uid t =
        { db with
          trips := db.trips ++ [t]
          participants := db.participants ++ [⟨t.id, uid, db.defaultStatus⟩] } ∧
      ((getUserJoinedTrips (createTrip db uid t) uid).any
          (fun jt => jt.trip.id == t.id) = true ↔
        db.defaultStatus ∈ joinedTripsStatusFilter) := by
  intro db uid t horg hfresh hnopart
  have hfind1 := findTrip_fresh db t hfresh
  have happ : createTrip db uid t =
      { db with
        trips := db.trips ++ [t]
        participants := db.participants ++ [⟨t.id, uid, db.defaultStatus⟩] } := by
    show (applyParticipantInsert { db with trips := db.trips ++ [t] }
        ⟨t.id, uid, none⟩).2 = _
    rw [applyParticipantInsert, if_neg (by rw [hfind1]; simp)]
  refine ⟨rfl, happ, ?_⟩
  rw [happ]
  constructor
  · intro hany
    obtain ⟨jt, hjt, hpred⟩ := List.any_eq_true.mp hany
    simp only [getUserJoinedTrips] at hjt
    obtain ⟨tr, htr, rfl⟩ := List.mem_map.mp hjt
    have h2 := (List.mem_filter.mp htr).2
    have htid : tr.id = t.id := by simpa using hpred
    rw [htid] at h2
    obtain ⟨x, hx, hxeq⟩ := List.contains_iff_exists_mem_beq.mp h2
    obtain ⟨p, hp, rfl⟩ := List.mem_map.mp hx
    have hp1 := List.mem_filter.mp hp
    rcases List.mem_append.mp hp1.1 with hold | hnew
    · have hxx : t.id = p.trip_id := by simpa using hxeq
      exact absurd hxx.symm (hnopart p hold)
    · have hpnew : p = ⟨t.id, uid, db.defaultStatus⟩ := by simpa using hnew
      subst hpnew
      have hst := ((Bool.and_eq_true _ _).mp hp1.2).2
      simpa using hst
  · intro hdef
    simp only [getUserJoinedTrips]
    apply List.any_eq_true.mpr
    have hpmem : (⟨t.id, uid, db.defaultStatus⟩ : TripParticipant) ∈
        (db.participants ++ ([⟨t.id, uid, db.defaultStatus⟩] : List TripParticipant)).filter
          (fun p => p.user_id == uid && joinedTripsStatusFilter.contains p.status) := by
      apply List.mem_filter.mpr
      refine ⟨List.mem_append_right _ (by simp), ?_⟩
      simp [hdef]
    refine ⟨_, List.mem_map.mpr
      ⟨t, List.mem_filter.mpr ⟨List.mem_append_right _ (by simp), ?_⟩, rfl⟩, by simp⟩
    apply List.contains_iff_exists_mem_beq.mpr
    exact ⟨t.id, List.mem_map.mpr ⟨_, hpmem, rfl⟩, by simp⟩

/-- Witness for C10: creating trip 40 for organizer 9 over an empty store
whose participant-status default is "pending" adds a single default-status
participant row, and "pending" being in the read filter makes the trip
visible in the organizer's joined list. -/
theorem C10_create_trip_organizer_default_witness :
    (organizerParticipantPayload 40 9).status = none ∧
    createTrip ⟨[], [], [], ["joined"], "pending"⟩ 9 ⟨40, 9, 5, 1, "open", true⟩ =
      ⟨[⟨40, 9, 5, 1, "open", true⟩], [⟨40, 9, "pending"⟩], [], ["joined"], "pending"⟩ ∧
    ((getUserJoinedTrips
        (createTrip ⟨[], [], [], ["joined"], "pending"⟩ 9 ⟨40, 9, 5, 1, "open", true⟩)
        9).any (fun jt => jt.trip.id == 40) = true ↔
      "pending" ∈ joinedTripsStatusFilter) :=
  C10_create_trip_organizer_default ⟨[], [], [], ["joined"], "pending"⟩ 9
    ⟨40, 9, 5, 1, "open", true⟩ rfl (by simp) (by simp)

end OnTwoWheelz
